import Mathlib

/-!
Verification development for the pstack DWARF layer.

Shallow embedding of `src/dwarf_die.cc` (namespace `Dwarf` of the pstack
repository): the DIE decoder (`DIE::Raw::Raw`, `DIE::decode`), attribute
value decoding (`DIE::Attribute::Value::Value`), attribute lookup with
indirection (`DIE::attribute`), address containment
(`DIE::containsAddress`), range-list decoding
(`DIE::Attribute::operator const Ranges&`), DIE-reference resolution
(`DIE::Attribute::operator DIE`), the scalar/string conversions, and the
scoped stop/resume object `StopProcess` from the process header.

Machine integers are modelled as `Nat` reduced mod `2^64` exactly where the
C++ code performs 64-bit arithmetic.  Fallible paths (`abort()`, thrown
exceptions, unresolved references) are explicit constructors of result
types.
-/

namespace Dwarf

/-- 2^64, the modulus of `Elf::Addr` / `uintmax_t` arithmetic on x86_64. -/
def W : Nat := 2 ^ 64

/-- Reduce a `Nat` into the 64-bit machine range, as C++ unsigned arithmetic does. -/
def trunc (x : Nat) : Nat := x % W

/-- The 64-bit two's-complement bit pattern of an `intmax_t` value. -/
def intPattern (i : Int) : Nat := (i % (W : Int)).toNat

/-- DWARF attribute forms: exactly the cases handled by the `switch` in
`DIE::Attribute::Value::Value` (src/dwarf_die.cc:150-294). The C++ `default`
branch aborts on any other form; this inductive has no such constructor, so
`decodeValue` below is total on the handled set. -/
inductive Form where
  | DW_FORM_GNU_strp_alt
  | DW_FORM_strp
  | DW_FORM_line_strp
  | DW_FORM_GNU_ref_alt
  | DW_FORM_addr
  | DW_FORM_data1
  | DW_FORM_data2
  | DW_FORM_data4
  | DW_FORM_data8
  | DW_FORM_sdata
  | DW_FORM_udata
  | DW_FORM_strx
  | DW_FORM_loclistx
  | DW_FORM_rnglistx
  | DW_FORM_addrx
  | DW_FORM_ref_udata
  | DW_FORM_strx1
  | DW_FORM_addrx1
  | DW_FORM_ref1
  | DW_FORM_strx2
  | DW_FORM_ref2
  | DW_FORM_addrx3
  | DW_FORM_strx3
  | DW_FORM_strx4
  | DW_FORM_addrx4
  | DW_FORM_ref4
  | DW_FORM_ref_addr
  | DW_FORM_ref8
  | DW_FORM_string
  | DW_FORM_block1
  | DW_FORM_block2
  | DW_FORM_block4
  | DW_FORM_exprloc
  | DW_FORM_block
  | DW_FORM_flag
  | DW_FORM_flag_present
  | DW_FORM_sec_offset
  | DW_FORM_ref_sig8
  | DW_FORM_implicit_const
deriving DecidableEq

/-- An entry of an abbreviation's form list: the form plus the
`DW_FORM_implicit_const` payload (the C++ `FormEntry::value`). -/
structure FormEntry where
  form : Form
  value : Int
deriving DecidableEq

/-- Modelled from the spec: the per-unit properties the decoder consults
(`Unit` is declared in libpstack/dwarf.h, not under src/): DWARF version,
32/64-bit DWARF offset size `dwarfLen`, address size `addrlen`, and the
unit's start offset in `.debug_info`. -/
structure UnitMeta where
  version : Nat
  dwarfLen : Nat
  addrlen : Nat
  offset : Nat
deriving DecidableEq

/-- A decoded attribute value.  The C++ `DIE::Attribute::Value` is a union of
64-bit scalars (`addr`/`udata`/`sdata`/`signature` alias one 64-bit word), a
block descriptor, and a flag; `scalar` carries the shared 64-bit pattern. -/
inductive Value where
  | scalar (bits : Nat)
  | blockV (length off : Nat)
  | flagV (b : Bool)
deriving DecidableEq

/-- Reading the union member `udata`/`addr`: the raw 64-bit pattern. -/
def Value.udataView : Value → Nat
  | .scalar b => b
  | .blockV _ _ => 0
  | .flagV _ => 0

/-- Reading the union member `sdata`: the 64-bit pattern as a signed value. -/
def Value.sdataView (v : Value) : Int :=
  if v.udataView < 2 ^ 63 then Int.ofNat v.udataView
  else Int.ofNat v.udataView - Int.ofNat W

/-- Modelled from the spec: `DWARFReader`, a cursor over a byte section
(declared in libpstack/dwarf.h, not under src/). -/
structure DWARFReader where
  data : List Nat
  off : Nat
deriving DecidableEq

/-- Little-endian read of `n` bytes at `off` (bytes past the end read as 0). -/
def leBytes (data : List Nat) (off n : Nat) : Nat :=
  match n with
  | 0 => 0
  | m + 1 => data.getD off 0 + 256 * leBytes data (off + 1) m

/-- ULEB128 decoding of a byte list: value and number of bytes consumed. -/
def ulebDecode : List Nat → Nat × Nat
  | [] => (0, 0)
  | b :: rest =>
    if b < 128 then (b, 1)
    else
      let p := ulebDecode rest
      (b % 128 + 128 * p.1, p.2 + 1)

/-- SLEB128 decoding of a byte list: value and number of bytes consumed. -/
def slebDecode : List Nat → Int × Nat
  | [] => (0, 0)
  | b :: rest =>
    if b < 128 then
      (if b < 64 then (Int.ofNat b, 1) else (Int.ofNat b - 128, 1))
    else
      let p := slebDecode rest
      (Int.ofNat (b % 128) + 128 * p.1, p.2 + 1)

/-- Modelled from the spec: `DWARFReader::getu8`. -/
def DWARFReader.getu8 (r : DWARFReader) : Nat × DWARFReader :=
  (r.data.getD r.off 0, { r with off := r.off + 1 })

/-- Modelled from the spec: `DWARFReader::getuint` — `n` bytes, little-endian. -/
def DWARFReader.getuint (r : DWARFReader) (n : Nat) : Nat × DWARFReader :=
  (leBytes r.data r.off n, { r with off := r.off + n })

/-- Modelled from the spec: `DWARFReader::getu16`. -/
def DWARFReader.getu16 (r : DWARFReader) : Nat × DWARFReader := r.getuint 2

/-- Modelled from the spec: `DWARFReader::getu32`. -/
def DWARFReader.getu32 (r : DWARFReader) : Nat × DWARFReader := r.getuint 4

/-- Sign-extend an `n`-byte little-endian value to the 64-bit pattern that
storing the resulting `intmax_t` into a 64-bit unsigned field produces. -/
def signExtend64 (v n : Nat) : Nat :=
  if 8 ≤ n then trunc v
  else if v < 2 ^ (8 * n - 1) then v
  else trunc (v + (W - 2 ^ (8 * n)))

/-- Modelled from the spec: `DWARFReader::getint` — `n` bytes, sign-extended;
the result is the 64-bit pattern it leaves in the destination field. -/
def DWARFReader.getint (r : DWARFReader) (n : Nat) : Nat × DWARFReader :=
  (signExtend64 (leBytes r.data r.off n) n, { r with off := r.off + n })

/-- Modelled from the spec: `DWARFReader::getuleb128` (wraps mod 2^64). -/
def DWARFReader.getuleb128 (r : DWARFReader) : Nat × DWARFReader :=
  let p := ulebDecode (r.data.drop r.off)
  (trunc p.1, { r with off := r.off + p.2 })

/-- Modelled from the spec: `DWARFReader::getsleb128`, as a 64-bit pattern. -/
def DWARFReader.getsleb128 (r : DWARFReader) : Nat × DWARFReader :=
  let p := slebDecode (r.data.drop r.off)
  (intPattern p.1, { r with off := r.off + p.2 })

/-- Modelled from the spec: `DWARFReader::getOffset`. -/
def DWARFReader.getOffset (r : DWARFReader) : Nat := r.off

/-- Modelled from the spec: `DWARFReader::skip`. -/
def DWARFReader.skip (r : DWARFReader) (n : Nat) : DWARFReader :=
  { r with off := r.off + n }

/-- Modelled from the spec: `DWARFReader::getstring` used for its
side effect only in `DW_FORM_string` — advance past the terminating NUL. -/
def DWARFReader.getstring (r : DWARFReader) : DWARFReader :=
  let idx := (r.data.drop r.off).findIdx (fun b => b == 0)
  { r with off := r.off + idx + 1 }

/-- Translation of `DIE::Attribute::Value::Value(DWARFReader&, const FormEntry&,
Value&, Unit*)` (src/dwarf_die.cc:150-294): decode one attribute value,
consuming the form's bytes from the reader. -/
def decodeValue (u : UnitMeta) (fe : FormEntry) (r : DWARFReader) : Value × DWARFReader :=
  match fe.form with
  | .DW_FORM_GNU_strp_alt =>
    let p := r.getint u.dwarfLen
    (Value.scalar p.1, p.2)
  | .DW_FORM_strp | .DW_FORM_line_strp =>
    let p := r.getint (if u.version ≤ 2 then 4 else u.dwarfLen)
    (Value.scalar p.1, p.2)
  | .DW_FORM_GNU_ref_alt =>
    let p := r.getuint u.dwarfLen
    (Value.scalar p.1, p.2)
  | .DW_FORM_addr =>
    let p := r.getuint u.addrlen
    (Value.scalar p.1, p.2)
  | .DW_FORM_data1 =>
    let p := r.getu8
    (Value.scalar p.1, p.2)
  | .DW_FORM_data2 =>
    let p := r.getu16
    (Value.scalar p.1, p.2)
  | .DW_FORM_data4 =>
    let p := r.getu32
    (Value.scalar p.1, p.2)
  | .DW_FORM_data8 =>
    let p := r.getuint 8
    (Value.scalar p.1, p.2)
  | .DW_FORM_sdata =>
    let p := r.getsleb128
    (Value.scalar p.1, p.2)
  | .DW_FORM_udata =>
    let p := r.getuleb128
    (Value.scalar p.1, p.2)
  | .DW_FORM_strx | .DW_FORM_loclistx | .DW_FORM_rnglistx
  | .DW_FORM_addrx | .DW_FORM_ref_udata =>
    let p := r.getuleb128
    (Value.scalar p.1, p.2)
  | .DW_FORM_strx1 | .DW_FORM_addrx1 | .DW_FORM_ref1 =>
    let p := r.getu8
    (Value.scalar p.1, p.2)
  | .DW_FORM_strx2 | .DW_FORM_ref2 =>
    let p := r.getu16
    (Value.scalar p.1, p.2)
  | .DW_FORM_addrx3 | .DW_FORM_strx3 =>
    let p := r.getuint 3
    (Value.scalar p.1, p.2)
  | .DW_FORM_strx4 | .DW_FORM_addrx4 | .DW_FORM_ref4 =>
    let p := r.getu32
    (Value.scalar p.1, p.2)
  | .DW_FORM_ref_addr =>
    let p := r.getuint u.dwarfLen
    (Value.scalar p.1, p.2)
  | .DW_FORM_ref8 =>
    let p := r.getuint 8
    (Value.scalar p.1, p.2)
  | .DW_FORM_string =>
    let here := r.getOffset
    (Value.scalar here, r.getstring)
  | .DW_FORM_block1 =>
    let p := r.getu8
    (Value.blockV p.1 p.2.getOffset, p.2.skip p.1)
  | .DW_FORM_block2 =>
    let p := r.getu16
    (Value.blockV p.1 p.2.getOffset, p.2.skip p.1)
  | .DW_FORM_block4 =>
    let p := r.getu32
    (Value.blockV p.1 p.2.getOffset, p.2.skip p.1)
  | .DW_FORM_exprloc | .DW_FORM_block =>
    let p := r.getuleb128
    (Value.blockV p.1 p.2.getOffset, p.2.skip p.1)
  | .DW_FORM_flag =>
    let p := r.getu8
    (Value.flagV (p.1 != 0), p.2)
  | .DW_FORM_flag_present =>
    (Value.flagV true, r)
  | .DW_FORM_sec_offset =>
    let p := r.getint u.dwarfLen
    (Value.scalar p.1, p.2)
  | .DW_FORM_ref_sig8 =>
    let p := r.getuint 8
    (Value.scalar p.1, p.2)
  | .DW_FORM_implicit_const =>
    (Value.scalar (intPattern fe.value), r)

/-- Sequential decoding of a form list, in declaration order — the loop body
of `DIE::Raw::Raw` without the sibling bookkeeping. -/
def decodeValues (u : UnitMeta) : List FormEntry → DWARFReader → List Value × DWARFReader
  | [], r => ([], r)
  | fe :: rest, r =>
    let p := decodeValue u fe r
    let q := decodeValues u rest p.2
    (p.1 :: q.1, q.2)

/-- Modelled from the spec (§4.1, `AbbreviationTable` is not under src/): an
abbreviation entry — tag, has-children flag, ordered form list, the
attribute-name-to-index map, and the precomputed index of any
`DW_AT_sibling` attribute (`nextSibIdx`, `-1` in C++ rendered as `none`). -/
structure Abbreviation where
  tag : Nat
  hasChildren : Bool
  forms : List FormEntry
  attrName2Idx : List (Nat × Nat)
  nextSibIdx : Option Nat
deriving DecidableEq

/-- Translation of `DIE::Raw` (src/dwarf_die.cc:6-20): abbreviation, decoded
values, and the three lazily-determined offsets (`0` = not yet known). -/
structure Raw where
  type : Abbreviation
  values : List Value
  parent : Nat
  firstChild : Nat
  nextSibling : Nat
deriving DecidableEq

/-- The attribute-decoding loop of `DIE::Raw::Raw` (src/dwarf_die.cc:133-140):
decode each form in order; at the `DW_AT_sibling` index record
`values[i].sdata + unit->offset` (64-bit arithmetic on the union's pattern).
Returns (values, nextSibling-so-far, reader). -/
def mkRawGo (u : UnitMeta) : List FormEntry → Nat → Option Nat → DWARFReader → List Value × Nat × DWARFReader
  | [], _, _, r => ([], 0, r)
  | fe :: rest, i, idx, r =>
    let p := decodeValue u fe r
    let q := mkRawGo u rest (i + 1) idx p.2
    let ns := if idx = some i then trunc (p.1.udataView + u.offset) else q.2.1
    (p.1 :: q.1, ns, q.2.2)

/-- Translation of `DIE::Raw::Raw` (src/dwarf_die.cc:127-148): decode the
attributes, then: children declared → `firstChild` is the reader cursor;
no children → `nextSibling` is the cursor and `firstChild = 0`. -/
def mkRaw (u : UnitMeta) (ab : Abbreviation) (parent : Nat) (r : DWARFReader) : Raw × DWARFReader :=
  let t := mkRawGo u ab.forms 0 ab.nextSibIdx r
  if ab.hasChildren then
    ({ type := ab, values := t.1, parent := parent, firstChild := t.2.2.off, nextSibling := t.2.1 }, t.2.2)
  else
    ({ type := ab, values := t.1, parent := parent, firstChild := 0, nextSibling := t.2.2.off }, t.2.2)

/-- Result of `DIE::decode` (src/dwarf_die.cc:339-352).  `terminator c` is the
null entry: the C++ code back-fills `parent.raw->nextSibling = c` (the reader
offset after the zero abbreviation code) and returns null.  `unknownAbbrev`
models `findAbbreviation` failing on the code. -/
inductive DecodeResult where
  | terminator (parentNextSibling : Nat)
  | entry (raw : Raw) (cursor : Nat)
  | unknownAbbrev
deriving DecidableEq

/-- Translation of `DIE::decode` (src/dwarf_die.cc:339-352). -/
def decodeDIE (u : UnitMeta) (find : Nat → Option Abbreviation) (data : List Nat)
    (offset parent : Nat) : DecodeResult :=
  let r : DWARFReader := { data := data, off := offset }
  let p := r.getuleb128
  if p.1 = 0 then .terminator p.2.off
  else
    match find p.1 with
    | none => .unknownAbbrev
    | some ab =>
      let q := mkRaw u ab parent p.2
      .entry q.1 q.2.off

/-- The raw DIE of a decode result, when one was produced. -/
def DecodeResult.rawOf : DecodeResult → Option Raw
  | .entry raw _ => some raw
  | _ => none

/-- The reader cursor after a decoded entry. -/
def DecodeResult.cursorOf : DecodeResult → Option Nat
  | .entry _ c => some c
  | _ => none

/-- The fixed decoding context of one unit: unit properties, abbreviation
lookup, and the `.debug_info` bytes. -/
structure DecodeCtx where
  u : UnitMeta
  find : Nat → Option Abbreviation
  data : List Nat

/-- Decode the DIE at `off` (parent unknown, as for cross-references). -/
def decodeAt (c : DecodeCtx) (off : Nat) : DecodeResult :=
  decodeDIE c.u c.find c.data off 0

/-- The child walk behind `DIE::nextSibling` (src/dwarf_die.cc:28-43): decode
successive siblings starting at `off` until the null terminator; its cursor
is the value the walk back-fills into the parent's `nextSibling`.  A child
whose own `nextSibling` is unknown recursively walks its children.  `fuel`
bounds the recursion; `none` = fuel exhausted. -/
def walkSibs : Nat → DecodeCtx → Nat → Option Nat
  | 0, _, _ => none
  | fuel + 1, c, off =>
    match decodeAt c off with
    | .terminator nxt => some nxt
    | .entry raw _ =>
      match (if raw.nextSibling ≠ 0 then some raw.nextSibling else walkSibs fuel c raw.firstChild) with
      | some n => walkSibs fuel c n
      | none => none
    | .unknownAbbrev => none

/-- Observable result of `DIE::nextSibling` (src/dwarf_die.cc:28-43): if the
offset is already known (back-filled at decode time, possibly from
`DW_AT_sibling`) use it; otherwise walk all children, whose terminating null
entry yields (and in C++ back-fills) the offset. -/
def nextSiblingOffset (fuel : Nat) (c : DecodeCtx) (raw : Raw) : Option Nat :=
  if raw.nextSibling ≠ 0 then some raw.nextSibling
  else walkSibs fuel c raw.firstChild

/-- `ContainsAddr` (libpstack/dwarf.h), the tri-state containment answer. -/
inductive ContainsAddr where
  | NO
  | YES
  | UNKNOWN
deriving DecidableEq

/-- Translation of `DIE::Attribute::operator uintmax_t` (src/dwarf_die.cc:405-423)
without the validity test: the handled forms, `none` for the `abort()` default. -/
def formUintmax (form : Form) (v : Value) : Option Nat :=
  match form with
  | .DW_FORM_data1 | .DW_FORM_data2 | .DW_FORM_data4 | .DW_FORM_data8
  | .DW_FORM_udata | .DW_FORM_implicit_const => some v.udataView
  | .DW_FORM_addr | .DW_FORM_sec_offset => some v.udataView
  | _ => none

/-- `DIE::Attribute::operator uintmax_t` (src/dwarf_die.cc:405-423): invalid
attributes convert to 0. -/
def attrUintmax (valid : Bool) (form : Form) (v : Value) : Option Nat :=
  if valid = false then some 0 else formUintmax form v

/-- Translation of `DIE::Attribute::operator intmax_t` (src/dwarf_die.cc:385-403)
without the validity test (`sec_offset` returns the union word, reinterpreted
signed on return); `none` for the `abort()` default. -/
def formIntmax (form : Form) (v : Value) : Option Int :=
  match form with
  | .DW_FORM_data1 | .DW_FORM_data2 | .DW_FORM_data4 | .DW_FORM_data8
  | .DW_FORM_sdata | .DW_FORM_udata | .DW_FORM_implicit_const => some v.sdataView
  | .DW_FORM_sec_offset => some v.sdataView
  | _ => none

/-- `DIE::Attribute::operator intmax_t` (src/dwarf_die.cc:385-403): invalid
attributes convert to 0. -/
def attrIntmax (valid : Bool) (form : Form) (v : Value) : Option Int :=
  if valid = false then some 0 else formIntmax form v

/-- The local low/high/ranges attributes of a DIE as `DIE::containsAddress`
fetches them (`attribute(name, true)`): presence, form and 64-bit value. -/
structure PcAttrs where
  low : Option (Form × Nat)
  high : Option (Form × Nat)
  ranges : Option Nat
deriving DecidableEq

/-- The `high_pc` endpoint per its form (src/dwarf_die.cc:64-77):
`DW_FORM_addr` is absolute, data/udata forms are offsets from `start`;
`none` for the `abort()` default. -/
def highEnd (start : Nat) (hf : Form) (hv : Nat) : Option Nat :=
  match hf with
  | .DW_FORM_addr => some hv
  | .DW_FORM_data1 | .DW_FORM_data2 | .DW_FORM_data4 | .DW_FORM_data8
  | .DW_FORM_udata => some (trunc (start + hv))
  | _ => none

/-- `Elf::Addr base = low.valid() ? uintmax_t(low) : 0;` (src/dwarf_die.cc:83). -/
def baseOf (lowA : Option (Form × Nat)) : Option Nat :=
  match lowA with
  | some lp => formUintmax lp.1 (Value.scalar lp.2)
  | none => some 0

/-- Translation of `DIE::containsAddress` (src/dwarf_die.cc:45-93).  `rangesOf`
stands for the decoded range list of a `DW_AT_ranges` value
(`Ranges(ranges)`); `none` models the `abort()` paths on unhandled forms. -/
def containsAddress (a : PcAttrs) (rangesOf : Nat → List (Nat × Nat)) (addr : Nat) :
    Option ContainsAddr :=
  match a.low, a.high with
  | some (lf, lv), some (hf, hv) =>
    match lf with
    | .DW_FORM_addr =>
      match highEnd lv hf hv with
      | some e => some (if lv ≤ addr ∧ addr < e then .YES else .NO)
      | none => none
    | _ => none
  | lowA, _ =>
    match baseOf lowA with
    | none => none
    | some base =>
      match a.ranges with
      | some rv =>
        some (if (rangesOf rv).any
               (fun p => decide (trunc (p.1 + base) ≤ addr) && decide (addr ≤ trunc (p.2 + base)))
              then .YES else .NO)
      | none => some .UNKNOWN

/-- Translation of the DWARF4 arm of `DIE::Attribute::operator const Ranges&`
(src/dwarf_die.cc:436-445): read pairs of `sizeof(Elf::Addr)`-byte values
until both are zero; every other pair is appended to the range list —
including pairs whose first value is the all-ones address.  `fuel` bounds the
loop; `none` = fuel exhausted. -/
def decodeRanges4 : Nat → DWARFReader → List (Nat × Nat) → Option (List (Nat × Nat) × DWARFReader)
  | 0, _, _ => none
  | fuel + 1, r, acc =>
    let p := r.getuint 8
    let q := p.2.getuint 8
    if p.1 = 0 ∧ q.1 = 0 then some (acc, q.2)
    else decodeRanges4 fuel q.2 (acc ++ [(p.1, q.1)])

/-- Outcome of decoding a DWARF5 rnglist.  `aborted` models the `abort()`
calls in src/dwarf_die.cc:470-514; `unresolvedAddressIndex` is the
recoverable failure the spec (§4.4, §7) prescribes — the code never
produces it. -/
inductive RlOutcome where
  | ok (ranges : List (Nat × Nat))
  | unresolvedAddressIndex
  | aborted
deriving DecidableEq

/-- Translation of the DWARF5 arm of `DIE::Attribute::operator const Ranges&`
(src/dwarf_die.cc:462-516): opcode-prefixed entries. Entry codes are the
DWARF5 `DW_RLE_*` values (end_of_list 0, base_addressx 1, startx_endx 2,
startx_length 3, offset_pair 4, base_address 5, start_end 6,
start_length 7).  `fuel` bounds the loop; `none` = fuel exhausted. -/
def decodeRnglists : Nat → Nat → DWARFReader → Nat → List (Nat × Nat) → Option RlOutcome
  | 0, _, _, _, _ => none
  | fuel + 1, alen, r, base, acc =>
    let t := r.getu8
    if t.1 = 0 then some (.ok acc)
    else if t.1 = 1 then
      let _ := t.2.getuleb128
      some .aborted
    else if t.1 = 2 then
      let a := t.2.getuleb128
      let _ := a.2.getuleb128
      some .aborted
    else if t.1 = 3 then
      let a := t.2.getuleb128
      let _ := a.2.getuleb128
      some .aborted
    else if t.1 = 4 then
      let a := t.2.getuleb128
      let b := a.2.getuleb128
      decodeRnglists fuel alen b.2 base (acc ++ [(trunc (a.1 + base), trunc (b.1 + base))])
    else if t.1 = 5 then
      let a := t.2.getuint alen
      decodeRnglists fuel alen a.2 a.1 acc
    else if t.1 = 6 then
      let a := t.2.getuint alen
      let b := a.2.getuint alen
      decodeRnglists fuel alen b.2 base (acc ++ [(a.1, b.1)])
    else if t.1 = 7 then
      let a := t.2.getuint alen
      let b := a.2.getuleb128
      decodeRnglists fuel alen b.2 base (acc ++ [(a.1, trunc (a.1 + b.1))])
    else some .aborted

/-- Result of `DIE::Attribute::operator DIE` (src/dwarf_die.cc:559-598).
`die none` is the empty `DIE()`; `thrown` is the
`throw (Exception() << "no alt reference")` path; `aborted` the `abort()`
default on non-reference forms. -/
inductive RefResult where
  | die (d : Option Nat)
  | thrown
  | aborted
deriving DecidableEq

/-- A compilation unit's extent in `.debug_info`. -/
structure UnitSpan where
  start : Nat
  stop : Nat
deriving DecidableEq

/-- Modelled from the spec: `Info::offsetToDIE` (not under src/) — resolve a
section-absolute offset through the global unit index; an offset no known
unit covers is an `UnresolvedReference`, and the query returns the empty DIE
(§4.2 cross-unit resolution, §7 UnresolvedReference). -/
def infoOffsetToDIE (units : List UnitSpan) (dieAt : Nat → Option Nat) (off : Nat) : Option Nat :=
  if units.any (fun s => decide (s.start ≤ off) && decide (off < s.stop)) then dieAt off
  else none

/-- The resolution environment of `DIE::Attribute::operator DIE`: the
referring unit's extent and cache lookup, the global unit index of the
referring `Info`, and the alt-DWARF `Info`'s lookup when an alt file is
loaded. -/
structure RefEnv where
  unitOffset : Nat
  unitEnd : Nat
  unitLookup : Nat → Option Nat
  units : List UnitSpan
  dieAt : Nat → Option Nat
  altLookup : Option (Nat → Option Nat)

/-- The tail of `DIE::Attribute::operator DIE` (src/dwarf_die.cc:589-597) for
a same-`Info` reference: try the referring unit first when the target offset
lies within its bounds, else (or when that lookup misses) fall through to
the global unit index. -/
def sameInfoResolve (env : RefEnv) (off : Nat) : RefResult :=
  if env.unitOffset ≤ off ∧ off < env.unitEnd then
    match env.unitLookup off with
    | some d => .die (some d)
    | none => .die (infoOffsetToDIE env.units env.dieAt off)
  else .die (infoOffsetToDIE env.units env.dieAt off)

/-- Translation of `DIE::Attribute::operator DIE` (src/dwarf_die.cc:559-598):
invalid → empty DIE; `ref_addr` is section-absolute; `ref1/2/4/8/udata` are
relative to the referring unit's start; `GNU_ref_alt` resolves in the
alt-DWARF file (throwing when none is loaded, in which case the unit-first
check is skipped since the `Info` differs); other forms abort. -/
def attrToDIE (env : RefEnv) (valid : Bool) (form : Form) (v : Nat) : RefResult :=
  if valid = false then .die none
  else
    match form with
    | .DW_FORM_ref_addr => sameInfoResolve env v
    | .DW_FORM_ref_udata | .DW_FORM_ref1 | .DW_FORM_ref2
    | .DW_FORM_ref4 | .DW_FORM_ref8 => sameInfoResolve env (trunc (v + env.unitOffset))
    | .DW_FORM_GNU_ref_alt =>
      match env.altLookup with
      | none => .thrown
      | some alt => .die (alt v)
    | _ => .aborted

/-- `DW_AT_sibling` (0x01). -/
def DW_AT_sibling : Nat := 1

/-- `DW_AT_name` (0x03). -/
def DW_AT_name : Nat := 3

/-- `DW_AT_abstract_origin` (0x31). -/
def DW_AT_abstract_origin : Nat := 49

/-- `DW_AT_declaration` (0x3c). -/
def DW_AT_declaration : Nat := 60

/-- `DW_AT_specification` (0x47). -/
def DW_AT_specification : Nat := 71

/-- A DIE for the attribute-lookup model: its local attributes (name → 64-bit
value; for `DW_AT_abstract_origin` / `DW_AT_specification` the value is the
id of the referenced DIE, standing for the resolved `DIE(attribute(alt))`). -/
structure DieN where
  attrs : List (Nat × Nat)
deriving DecidableEq

/-- Local attribute lookup — the `attrName2Idx.find(name)` hit case of
`DIE::attribute` (src/dwarf_die.cc:98-100). -/
def lookupLocal (d : DieN) (name : Nat) : Option Nat :=
  (d.attrs.find? (fun p => p.1 == name)).map (fun p => p.2)

/-- Translation of `DIE::attribute(name, local)` (src/dwarf_die.cc:95-118)
over a world `w` of DIEs indexed by id.  Returns the id of the DIE where the
attribute was found together with its value.  The `derefs` set iterates in
ascending `AttrName` order: `DW_AT_abstract_origin` (0x31) before
`DW_AT_specification` (0x47); the loop is unrolled here.  A deref target
must resolve (`ao`) and be a different DIE (`ao.raw != raw`); the first such
target's (non-local) lookup result is returned unconditionally.  `fuel`
bounds the reference-chasing recursion; `none` also models an absent
attribute (the invalid `Attribute()`). -/
def attributeF : Nat → List DieN → Nat → Nat → Bool → Option (Nat × Nat)
  | 0, _, _, _, _ => none
  | fuel + 1, w, id, name, localOnly =>
    match w[id]? with
    | none => none
    | some d =>
      match lookupLocal d name with
      | some v => some (id, v)
      | none =>
        if localOnly then none
        else if name = DW_AT_declaration then none
        else if name = DW_AT_abstract_origin then none
        else if name = DW_AT_specification then none
        else
          match lookupLocal d DW_AT_abstract_origin with
          | some t =>
            if (w[t]?).isSome && t != id then attributeF fuel w t name false
            else
              match lookupLocal d DW_AT_specification with
              | some t2 =>
                if (w[t2]?).isSome && t2 != id then attributeF fuel w t2 name false
                else none
              | none => none
          | none =>
            match lookupLocal d DW_AT_specification with
            | some t2 =>
              if (w[t2]?).isSome && t2 != id then attributeF fuel w t2 name false
              else none
            | none => none

/-- The placeholder `DIE::Attribute::operator std::string` returns when the
alt string table is unavailable (src/dwarf_die.cc:532-535). -/
def altStrUnavailable : String := ("(alt string table unavailable)")

/-- The string sections `DIE::Attribute::operator std::string` reads from;
the alt tables collapse into one optional lookup. -/
structure StrEnv where
  debugStrings : Nat → String
  debugLineStrings : Nat → String
  debugInfoStrings : Nat → String
  altStrings : Option (Nat → String)
  strxTable : Nat → String

/-- Translation of `DIE::Attribute::operator std::string`
(src/dwarf_die.cc:521-557): invalid converts to the empty string; `none`
models the `abort()` default on non-string forms. -/
def attrString (e : StrEnv) (valid : Bool) (form : Form) (v : Value) : Option String :=
  if valid = false then some ("")
  else
    match form with
    | .DW_FORM_GNU_strp_alt =>
      match e.altStrings with
      | none => some altStrUnavailable
      | some f => some (f v.udataView)
    | .DW_FORM_strp => some (e.debugStrings v.udataView)
    | .DW_FORM_line_strp => some (e.debugLineStrings v.udataView)
    | .DW_FORM_string => some (e.debugInfoStrings v.udataView)
    | .DW_FORM_strx1 | .DW_FORM_strx2 | .DW_FORM_strx3 | .DW_FORM_strx4
    | .DW_FORM_strx => some (e.strxTable v.udataView)
    | _ => none

/-- Translation of `DIE::name` (src/dwarf_die.cc:120-125): the (indirected)
`DW_AT_name` attribute converted to a string via `st`, or the empty string
when the attribute is absent. -/
def dieName (fuel : Nat) (w : List DieN) (st : Nat → String) (id : Nat) : String :=
  match attributeF fuel w id DW_AT_name false with
  | some pr => st pr.2
  | none => ("")

/-- The observable effects on a `Process`: how often `stopProcess()` and
`resumeProcess()` were called (src/unnamed/part_000:182-183, 279-290). -/
structure ProcState where
  stops : Nat
  resumes : Nat
deriving DecidableEq

/-- A `proc->stopProcess()` call. -/
def stopProcessFx (s : ProcState) : ProcState := { s with stops := s.stops + 1 }

/-- A `proc->resumeProcess()` call. -/
def resumeProcessFx (s : ProcState) : ProcState := { s with resumes := s.resumes + 1 }

/-- The `StopProcess` object's own state: `proc` non-null = armed. -/
structure StopProcessObj where
  armed : Bool
deriving DecidableEq

/-- `StopProcess::StopProcess` (src/unnamed/part_000:282): stop the process
and arm the guard. -/
def stopProcessInit (s : ProcState) : StopProcessObj × ProcState :=
  ({ armed := true }, stopProcessFx s)

/-- `StopProcess::clear` (src/unnamed/part_000:283-288): if still armed,
resume the process and null `proc`; otherwise do nothing. -/
def stopProcessClear (p : StopProcessObj × ProcState) : StopProcessObj × ProcState :=
  if p.1.armed then ({ armed := false }, resumeProcessFx p.2) else p

/-- `StopProcess::~StopProcess` (src/unnamed/part_000:289): runs `clear()`. -/
def stopProcessDestroy (p : StopProcessObj × ProcState) : ProcState :=
  (stopProcessClear p).2

/-- `k` explicit `clear()` calls in sequence. -/
def iterClear : Nat → StopProcessObj × ProcState → StopProcessObj × ProcState
  | 0, p => p
  | k + 1, p => iterClear k (stopProcessClear p)

/-! Concrete fixtures used to instantiate the theorems below. -/

/-- A DWARF4, 32-bit-offset unit with 8-byte addresses starting at offset 0. -/
def exUnit : UnitMeta := { version := 4, dwarfLen := 4, addrlen := 8, offset := 0 }

/-- Abbreviation: has children, no attributes, no `DW_AT_sibling`. -/
def exAbbrevParent : Abbreviation :=
  { tag := 17, hasChildren := true, forms := [], attrName2Idx := [], nextSibIdx := none }

/-- Abbreviation: childless, no attributes. -/
def exAbbrevChildless : Abbreviation :=
  { tag := 46, hasChildren := false, forms := [], attrName2Idx := [], nextSibIdx := none }

/-- Abbreviation: has children and a `DW_FORM_ref4` `DW_AT_sibling` attribute. -/
def exAbbrevSib : Abbreviation :=
  { tag := 46, hasChildren := true, forms := [{ form := Form.DW_FORM_ref4, value := 0 }],
    attrName2Idx := [(DW_AT_sibling, 0)], nextSibIdx := some 0 }

/-- Abbreviation: childless but carrying a `DW_FORM_ref4` `DW_AT_sibling`. -/
def exAbbrevChildlessSib : Abbreviation :=
  { tag := 46, hasChildren := false, forms := [{ form := Form.DW_FORM_ref4, value := 0 }],
    attrName2Idx := [(DW_AT_sibling, 0)], nextSibIdx := some 0 }

/-- Abbreviation: childless with one `DW_FORM_data1` attribute. -/
def exAbbrevData1 : Abbreviation :=
  { tag := 17, hasChildren := false, forms := [{ form := Form.DW_FORM_data1, value := 0 }],
    attrName2Idx := [(DW_AT_name, 0)], nextSibIdx := none }

/-- Abbreviation table for the fixtures. -/
def exFind : Nat → Option Abbreviation
  | 1 => some exAbbrevParent
  | 2 => some exAbbrevChildless
  | 3 => some exAbbrevSib
  | 4 => some exAbbrevChildlessSib
  | 5 => some exAbbrevData1
  | _ => none

/-- `.debug_info` holding a parent (code 1) with one childless child (code 2)
and the null terminator. -/
def exCtxOneChild : DecodeCtx := { u := exUnit, find := exFind, data := [1, 2, 0] }

/-- `.debug_info` holding a parent (code 1) with no children: the terminator
follows immediately. -/
def exCtxNoChild : DecodeCtx := { u := exUnit, find := exFind, data := [1, 0] }

/-- A DWARF4 `.debug_ranges` stream: the pair
(0xffffffffffffffff, 0x400000) — a base-address selector per the DWARF
standard — then the pair (0x10, 0x20), then the (0, 0) terminator. -/
def cxBytesRanges : List Nat :=
  [255, 255, 255, 255, 255, 255, 255, 255] ++ [0, 0, 64, 0, 0, 0, 0, 0] ++
  [16, 0, 0, 0, 0, 0, 0, 0] ++ [32, 0, 0, 0, 0, 0, 0, 0] ++
  [0, 0, 0, 0, 0, 0, 0, 0] ++ [0, 0, 0, 0, 0, 0, 0, 0]

/-- A resolution environment with no known units and no alt-DWARF file. -/
def exEnvNoAlt : RefEnv :=
  { unitOffset := 0, unitEnd := 0, unitLookup := fun _ => none, units := [],
    dieAt := fun _ => none, altLookup := none }

/-- A resolution environment: referring unit [100, 200) holding DIE 77 at
offset 150, a second unit [200, 300) holding DIE 88 at 250, and an alt file. -/
def exEnvRef : RefEnv :=
  { unitOffset := 100, unitEnd := 200,
    unitLookup := fun o => if o = 150 then some 77 else none,
    units := [{ start := 100, stop := 200 }, { start := 200, stop := 300 }],
    dieAt := fun o => if o = 150 then some 77 else if o = 250 then some 88 else none,
    altLookup := some fun o => some (o + 1) }

/-- String tables for the fixtures. -/
def exStrEnv : StrEnv :=
  { debugStrings := fun _ => ("str"), debugLineStrings := fun _ => ("lstr"),
    debugInfoStrings := fun _ => ("istr"), altStrings := none,
    strxTable := fun _ => ("xstr") }

/-- A DIE carrying both `DW_AT_abstract_origin` → 1 and
`DW_AT_specification` → 2, and lacking `DW_AT_name`. -/
def exDieBoth : DieN :=
  { attrs := [(DW_AT_abstract_origin, 1), (DW_AT_specification, 2)] }

/-- World for the C7 counterexample: DIE 0 references DIE 1 (which lacks
`DW_AT_name`) as abstract origin and DIE 2 (which has `DW_AT_name` = 42) as
specification. -/
def exWorldBoth : List DieN :=
  [exDieBoth, { attrs := [] }, { attrs := [(DW_AT_name, 42)] }]

/-- A DIE whose only attribute is `DW_AT_abstract_origin` → 1. -/
def exDieAO : DieN := { attrs := [(DW_AT_abstract_origin, 1)] }

/-- World where DIE 0 lacks `DW_AT_name` but its abstract origin (DIE 1)
carries `DW_AT_name` = 99. -/
def exWorldAO : List DieN := [exDieAO, { attrs := [(DW_AT_name, 99)] }]

/-- A DIE whose only attribute is `DW_AT_specification` → 2. -/
def exDieSpec : DieN := { attrs := [(DW_AT_specification, 2)] }

/-- World where DIE 0 has no abstract origin and a specification (DIE 2)
carrying `DW_AT_name` = 42. -/
def exWorldSpec : List DieN :=
  [exDieSpec, { attrs := [] }, { attrs := [(DW_AT_name, 42)] }]

/-! Theorems. -/

/-- A disarmed `StopProcess` is unaffected by `clear()`. -/
theorem stopProcessClear_disarmed (p : StopProcessObj × ProcState) (h : p.1.armed = false) :
    stopProcessClear p = p := by
  simp [stopProcessClear, h]

/-- Repeated `clear()` on a disarmed `StopProcess` does nothing. -/
theorem iterClear_disarmed : ∀ (k : Nat) (p : StopProcessObj × ProcState),
    p.1.armed = false → iterClear k p = p
  | 0, _, _ => rfl
  | k + 1, p, h => by
    rw [iterClear, stopProcessClear_disarmed p h, iterClear_disarmed k p h]

/-- C9: `StopProcess` stops the process at construction and guarantees
exactly one `resumeProcess` call on every exit path: for any number `k` of
explicit `clear()` calls (including zero — plain destruction) followed by
destruction, the process sees exactly one stop and exactly one resume;
`clear()` disarms the object so no later destruction or second `clear()`
resumes again. -/
theorem claim_C9 (s : ProcState) (k : Nat) :
    (stopProcessInit s).2.stops = s.stops + 1 ∧
    stopProcessDestroy (iterClear k (stopProcessInit s)) =
      { stops := s.stops + 1, resumes := s.resumes + 1 } := by
  constructor
  · rfl
  · cases k with
    | zero => rfl
    | succ k =>
      have h1 : stopProcessClear (stopProcessInit s) =
          ({ armed := false }, resumeProcessFx (stopProcessFx s)) := rfl
      rw [iterClear, h1, iterClear_disarmed k _ rfl]
      rfl

/-- C2: evaluation of the DWARF4 range decoder on a stream whose first pair
has the all-ones first value: the code emits that pair as an ordinary range
(and applies no base adjustment to the following pair), whereas the claim
says such a pair is a base-address selector and is not emitted. -/
theorem claim_C2_selector_emitted :
    (decodeRanges4 8 { data := cxBytesRanges, off := 0 } []).map (fun p => p.1) =
      some [(W - 1, 4194304), (16, 32)] := by
  decide

/-- C4: evaluation of the DWARF5 rnglist decoder on streams beginning with
`DW_RLE_base_addressx`, `DW_RLE_startx_endx` and `DW_RLE_startx_length`: the
code reaches `abort()` (never the recoverable `unresolvedAddressIndex`
outcome or a decoded list), contradicting the claim. -/
theorem claim_C4_rnglist_aborts :
    decodeRnglists 4 8 { data := [1, 5], off := 0 } 0 [] = some RlOutcome.aborted ∧
    decodeRnglists 4 8 { data := [2, 1, 2], off := 0 } 0 [] = some RlOutcome.aborted ∧
    decodeRnglists 4 8 { data := [3, 1, 2], off := 0 } 0 [] = some RlOutcome.aborted := by
  decide

/-- C3 counterexample: a `DW_FORM_GNU_ref_alt` reference with no alt-DWARF
file loaded does not convert to the empty DIE — the code throws
("no alt reference"). -/
theorem claim_C3_counterexample :
    attrToDIE exEnvNoAlt true Form.DW_FORM_GNU_ref_alt 5 = RefResult.thrown ∧
    RefResult.thrown ≠ RefResult.die none := by
  decide

/-- C3 (amended): a `ref*` reference whose target offset lies in no known
unit (and misses the referring unit's cache) converts to the empty DIE; but
a `DW_FORM_GNU_ref_alt` reference with no alt-DWARF file loaded throws an
exception instead of returning the empty DIE. -/
theorem claim_C3_amended (env : RefEnv) (v : Nat) :
    (env.altLookup = none →
      attrToDIE env true Form.DW_FORM_GNU_ref_alt v = RefResult.thrown) ∧
    (env.units.any (fun s => decide (s.start ≤ v) && decide (v < s.stop)) = false →
      env.unitLookup v = none →
      attrToDIE env true Form.DW_FORM_ref_addr v = RefResult.die none) ∧
    (env.units.any (fun s => decide (s.start ≤ trunc (v + env.unitOffset)) &&
        decide (trunc (v + env.unitOffset) < s.stop)) = false →
      env.unitLookup (trunc (v + env.unitOffset)) = none →
      attrToDIE env true Form.DW_FORM_ref4 v = RefResult.die none) := by
  refine ⟨?_, ?_, ?_⟩
  · intro h
    simp [attrToDIE, h]
  · intro h1 h2
    simp only [attrToDIE, sameInfoResolve, infoOffsetToDIE, h1, h2]
    split <;> simp
  · intro h1 h2
    simp only [attrToDIE, sameInfoResolve, infoOffsetToDIE, h1, h2]
    split <;> simp

/-- C3 witness: the amended statement instantiated — in an environment with
no units and no alt file, `ref_addr`/`ref4` references resolve to the empty
DIE and an alt reference throws. -/
theorem claim_C3_witness :
    attrToDIE exEnvNoAlt true Form.DW_FORM_GNU_ref_alt 7 = RefResult.thrown ∧
    attrToDIE exEnvNoAlt true Form.DW_FORM_ref_addr 7 = RefResult.die none ∧
    attrToDIE exEnvNoAlt true Form.DW_FORM_ref4 7 = RefResult.die none :=
  ⟨(claim_C3_amended exEnvNoAlt 7).1 rfl,
   (claim_C3_amended exEnvNoAlt 7).2.1 (by decide) rfl,
   (claim_C3_amended exEnvNoAlt 7).2.2 (by decide) rfl⟩

/-- C10: every conversion of an invalid (absent) attribute is total and
yields the neutral value — 0 for `intmax_t` and `uintmax_t`, the empty
string for `std::string`, the empty DIE for `DIE` — and `DIE::name()` is the
empty string when `DW_AT_name` is absent (also through indirection). -/
theorem claim_C10 (form : Form) (v : Value) (e : StrEnv) (env : RefEnv)
    (fuel : Nat) (w : List DieN) (st : Nat → String) (id : Nat) :
    attrIntmax false form v = some 0 ∧
    attrUintmax false form v = some 0 ∧
    attrString e false form v = some ("") ∧
    attrToDIE env false form v.udataView = RefResult.die none ∧
    (attributeF fuel w id DW_AT_name false = none → dieName fuel w st id = ("")) := by
  refine ⟨rfl, rfl, rfl, rfl, ?_⟩
  intro h
  simp [dieName, h]

/-- C10 witness: the conversions at concrete invalid attributes, and
`DIE::name()` on a DIE (in an empty world) with no `DW_AT_name`. -/
theorem claim_C10_witness :
    attrIntmax false Form.DW_FORM_block (Value.blockV 1 2) = some 0 ∧
    attrUintmax false Form.DW_FORM_addr (Value.scalar 7) = some 0 ∧
    attrString exStrEnv false Form.DW_FORM_strp (Value.scalar 9) = some ("") ∧
    attrToDIE exEnvNoAlt false Form.DW_FORM_ref4 3 = RefResult.die none ∧
    dieName 3 [] (fun _ => ("x")) 0 = ("") :=
  ⟨(claim_C10 Form.DW_FORM_block (Value.blockV 1 2) exStrEnv exEnvNoAlt 3 [] (fun _ => ("x")) 0).1,
   (claim_C10 Form.DW_FORM_addr (Value.scalar 7) exStrEnv exEnvNoAlt 3 [] (fun _ => ("x")) 0).2.1,
   (claim_C10 Form.DW_FORM_strp (Value.scalar 9) exStrEnv exEnvNoAlt 3 [] (fun _ => ("x")) 0).2.2.1,
   (claim_C10 Form.DW_FORM_ref4 (Value.scalar 3) exStrEnv exEnvNoAlt 3 [] (fun _ => ("x")) 0).2.2.2.1,
   (claim_C10 Form.DW_FORM_ref4 (Value.scalar 3) exStrEnv exEnvNoAlt 3 [] (fun _ => ("x")) 0).2.2.2.2 rfl⟩

/-- C1: `containsAddress` is decided by three ordered rules.  (1) With both
`DW_AT_low_pc` (an address) and `DW_AT_high_pc` present, YES exactly when
the address lies in the half-open interval `[low, high)`, where `high` is
absolute for `DW_FORM_addr` and `low + value` for the data/udata forms
(`highEnd`).  (2) Otherwise, with `DW_AT_ranges` present, YES exactly when
some decoded interval, shifted by the base (`low_pc` if present, else 0),
contains the address inclusively at both ends.  (3) Otherwise UNKNOWN. -/
theorem claim_C1 (a : PcAttrs) (rangesOf : Nat → List (Nat × Nat)) (addr : Nat) :
    (∀ lv hf hv e, a.low = some (Form.DW_FORM_addr, lv) → a.high = some (hf, hv) →
      highEnd lv hf hv = some e →
      containsAddress a rangesOf addr =
        some (if lv ≤ addr ∧ addr < e then ContainsAddr.YES else ContainsAddr.NO)) ∧
    (∀ lv rv, a.low = some (Form.DW_FORM_addr, lv) → a.high = none → a.ranges = some rv →
      containsAddress a rangesOf addr =
        some (if (rangesOf rv).any
                (fun p => decide (trunc (p.1 + lv) ≤ addr) && decide (addr ≤ trunc (p.2 + lv)))
              then ContainsAddr.YES else ContainsAddr.NO)) ∧
    (∀ rv, a.low = none → a.ranges = some rv →
      containsAddress a rangesOf addr =
        some (if (rangesOf rv).any
                (fun p => decide (trunc (p.1 + 0) ≤ addr) && decide (addr ≤ trunc (p.2 + 0)))
              then ContainsAddr.YES else ContainsAddr.NO)) ∧
    (∀ lv, a.low = some (Form.DW_FORM_addr, lv) → a.high = none → a.ranges = none →
      containsAddress a rangesOf addr = some ContainsAddr.UNKNOWN) ∧
    (a.low = none → a.ranges = none → containsAddress a rangesOf addr = some ContainsAddr.UNKNOWN) := by
  obtain ⟨lo, hi, rg⟩ := a
  refine ⟨?_, ?_, ?_, ?_, ?_⟩
  · intro lv hf hv e hlo hhi he
    subst hlo; subst hhi
    simp [containsAddress, he]
  · intro lv rv hlo hhi hrg
    subst hlo; subst hhi; subst hrg
    simp [containsAddress, baseOf, formUintmax, Value.udataView]
  · intro rv hlo hrg
    subst hlo; subst hrg
    simp [containsAddress, baseOf]
  · intro lv hlo hhi hrg
    subst hlo; subst hhi; subst hrg
    simp [containsAddress, baseOf, formUintmax, Value.udataView]
  · intro hlo hrg
    subst hlo; subst hrg
    simp [containsAddress, baseOf]

/-- C1 witness: the three rules at concrete inputs — a `[0x1000, 0x1020)`
low/high pair containing 0x1010 (high in `DW_FORM_data4` form); a range list
`[(0x10, 0x20)]` with base `low_pc = 0x1000` containing 0x1012; a range list
`[(0x1010, 0x1020)]` with base 0 containing 0x1015; and the UNKNOWN cases. -/
theorem claim_C1_witness :
    containsAddress { low := some (Form.DW_FORM_addr, 4096), high := some (Form.DW_FORM_data4, 32), ranges := none }
      (fun _ => []) 4112 = some ContainsAddr.YES ∧
    containsAddress { low := some (Form.DW_FORM_addr, 4096), high := none, ranges := some 1 }
      (fun _ => [(16, 32)]) 4114 = some ContainsAddr.YES ∧
    containsAddress { low := none, high := none, ranges := some 3 }
      (fun _ => [(4112, 4128)]) 4117 = some ContainsAddr.YES ∧
    containsAddress { low := some (Form.DW_FORM_addr, 4096), high := none, ranges := none }
      (fun _ => []) 5 = some ContainsAddr.UNKNOWN ∧
    containsAddress { low := none, high := none, ranges := none }
      (fun _ => []) 5 = some ContainsAddr.UNKNOWN := by
  refine ⟨?_, ?_, ?_, ?_, ?_⟩
  · exact ((claim_C1 _ _ 4112).1 4096 Form.DW_FORM_data4 32 4128 rfl rfl (by decide)).trans (by decide)
  · exact ((claim_C1 _ _ 4114).2.1 4096 1 rfl rfl rfl).trans (by decide)
  · exact ((claim_C1 _ _ 4117).2.2.1 3 rfl rfl).trans (by decide)
  · exact (claim_C1 _ _ 5).2.2.2.1 4096 rfl rfl rfl
  · exact (claim_C1 _ _ 5).2.2.2.2 rfl rfl

/-- C6: DIE-reference resolution — `DW_FORM_ref_addr` is section-absolute;
`DW_FORM_ref1/2/4/8/udata` are relative to the referring unit's start
(all five agree); `DW_FORM_GNU_ref_alt` resolves in the alt-DWARF file; the
referring unit is searched first when the target offset lies within its
bounds, and otherwise resolution falls through to the global unit index. -/
theorem claim_C6 (env : RefEnv) (v d : Nat) :
    (env.unitOffset ≤ v → v < env.unitEnd → env.unitLookup v = some d →
      attrToDIE env true Form.DW_FORM_ref_addr v = RefResult.die (some d)) ∧
    (¬ (env.unitOffset ≤ v ∧ v < env.unitEnd) →
      attrToDIE env true Form.DW_FORM_ref_addr v =
        RefResult.die (infoOffsetToDIE env.units env.dieAt v)) ∧
    (env.unitOffset ≤ trunc (v + env.unitOffset) → trunc (v + env.unitOffset) < env.unitEnd →
      env.unitLookup (trunc (v + env.unitOffset)) = some d →
      attrToDIE env true Form.DW_FORM_ref4 v = RefResult.die (some d)) ∧
    (¬ (env.unitOffset ≤ trunc (v + env.unitOffset) ∧ trunc (v + env.unitOffset) < env.unitEnd) →
      attrToDIE env true Form.DW_FORM_ref4 v =
        RefResult.die (infoOffsetToDIE env.units env.dieAt (trunc (v + env.unitOffset)))) ∧
    (attrToDIE env true Form.DW_FORM_ref1 v = attrToDIE env true Form.DW_FORM_ref4 v ∧
     attrToDIE env true Form.DW_FORM_ref2 v = attrToDIE env true Form.DW_FORM_ref4 v ∧
     attrToDIE env true Form.DW_FORM_ref8 v = attrToDIE env true Form.DW_FORM_ref4 v ∧
     attrToDIE env true Form.DW_FORM_ref_udata v = attrToDIE env true Form.DW_FORM_ref4 v) ∧
    (∀ f, env.altLookup = some f →
      attrToDIE env true Form.DW_FORM_GNU_ref_alt v = RefResult.die (f v)) := by
  refine ⟨?_, ?_, ?_, ?_, ⟨rfl, rfl, rfl, rfl⟩, ?_⟩
  · intro h1 h2 h3
    simp [attrToDIE, sameInfoResolve, h1, h2, h3]
  · intro h
    simp [attrToDIE, sameInfoResolve, h]
  · intro h1 h2 h3
    simp [attrToDIE, sameInfoResolve, h1, h2, h3]
  · intro h
    simp [attrToDIE, sameInfoResolve, h]
  · intro f h
    simp [attrToDIE, h]

/-- C6 witness: in `exEnvRef`, a `ref4` of 50 (unit-relative → 150) resolves
in the referring unit to DIE 77; a `ref_addr` of 250 lies outside the
referring unit and falls through to the global index (DIE 88 in the second
unit); an alt reference resolves through the alt file. -/
theorem claim_C6_witness :
    attrToDIE exEnvRef true Form.DW_FORM_ref4 50 = RefResult.die (some 77) ∧
    attrToDIE exEnvRef true Form.DW_FORM_ref_addr 250 = RefResult.die (some 88) ∧
    attrToDIE exEnvRef true Form.DW_FORM_GNU_ref_alt 7 = RefResult.die (some 8) := by
  refine ⟨?_, ?_, ?_⟩
  · exact (claim_C6 exEnvRef 50 77).2.2.1 (by decide) (by decide) (by decide)
  · exact ((claim_C6 exEnvRef 250 0).2.1 (by decide)).trans (by decide)
  · exact ((claim_C6 exEnvRef 7 0).2.2.2.2.2 _ rfl).trans (by decide)

/-- The attribute loop of `DIE::Raw::Raw` decodes the same values and leaves
the reader at the same cursor as plain sequential decoding. -/
theorem mkRawGo_values_reader (u : UnitMeta) :
    ∀ (fes : List FormEntry) (i : Nat) (idx : Option Nat) (r : DWARFReader),
      (mkRawGo u fes i idx r).1 = (decodeValues u fes r).1 ∧
      (mkRawGo u fes i idx r).2.2 = (decodeValues u fes r).2
  | [], _, _, _ => ⟨rfl, rfl⟩
  | fe :: rest, i, idx, r => by
    have ih := mkRawGo_values_reader u rest (i + 1) idx (decodeValue u fe r).2
    simp [mkRawGo, decodeValues, ih.1, ih.2]

/-- Without a `DW_AT_sibling` index the attribute loop leaves
`nextSibling = 0`. -/
theorem mkRawGo_ns_none (u : UnitMeta) :
    ∀ (fes : List FormEntry) (i : Nat) (r : DWARFReader),
      (mkRawGo u fes i none r).2.1 = 0
  | [], _, _ => rfl
  | fe :: rest, i, r => by
    simp [mkRawGo, mkRawGo_ns_none u rest (i + 1) (decodeValue u fe r).2]

/-- With a `DW_AT_sibling` index `j` in range, the attribute loop records the
`j`-th decoded value (its 64-bit union pattern) plus the unit offset. -/
theorem mkRawGo_ns_at (u : UnitMeta) :
    ∀ (fes : List FormEntry) (i j : Nat) (r : DWARFReader),
      i ≤ j → j - i < fes.length →
      (mkRawGo u fes i (some j) r).2.1 =
        trunc (((decodeValues u fes r).1.getD (j - i) (Value.scalar 0)).udataView + u.offset)
  | [], i, j, r, _, hlt => by simp at hlt
  | fe :: rest, i, j, r, hle, hlt => by
    by_cases hji : j = i
    · subst hji
      simp [mkRawGo, decodeValues]
    · have hij : i + 1 ≤ j := by omega
      have hlt2 : j - (i + 1) < rest.length := by
        simp only [List.length_cons] at hlt
        omega
      have ih := mkRawGo_ns_at u rest (i + 1) j (decodeValue u fe r).2 hij hlt2
      have hsub : j - i = (j - (i + 1)) + 1 := by omega
      simp only [mkRawGo, decodeValues]
      rw [if_neg (by simp [hji]), ih, hsub]
      simp [List.getD_cons_succ]

/-- The values of a raw DIE are the sequentially decoded attribute values. -/
theorem mkRaw_values (u : UnitMeta) (ab : Abbreviation) (parent : Nat) (r : DWARFReader) :
    (mkRaw u ab parent r).1.values = (decodeValues u ab.forms r).1 := by
  have h := mkRawGo_values_reader u ab.forms 0 ab.nextSibIdx r
  simp only [mkRaw]
  split <;> simp [h.1]

/-- `DIE::Raw::Raw` leaves the reader where sequential decoding leaves it. -/
theorem mkRaw_reader (u : UnitMeta) (ab : Abbreviation) (parent : Nat) (r : DWARFReader) :
    (mkRaw u ab parent r).2 = (decodeValues u ab.forms r).2 := by
  have h := mkRawGo_values_reader u ab.forms 0 ab.nextSibIdx r
  simp only [mkRaw]
  split <;> simp [h.2]

/-- With children declared, `firstChild` is the cursor after the attributes. -/
theorem mkRaw_firstChild_true (u : UnitMeta) (ab : Abbreviation) (parent : Nat)
    (r : DWARFReader) (h : ab.hasChildren = true) :
    (mkRaw u ab parent r).1.firstChild = (decodeValues u ab.forms r).2.off := by
  have hv := mkRawGo_values_reader u ab.forms 0 ab.nextSibIdx r
  simp [mkRaw, h, hv.2]

/-- Without children, `firstChild = 0` and `nextSibling` is the cursor after
the attributes. -/
theorem mkRaw_children_false (u : UnitMeta) (ab : Abbreviation) (parent : Nat)
    (r : DWARFReader) (h : ab.hasChildren = false) :
    (mkRaw u ab parent r).1.firstChild = 0 ∧
    (mkRaw u ab parent r).1.nextSibling = (decodeValues u ab.forms r).2.off := by
  have hv := mkRawGo_values_reader u ab.forms 0 ab.nextSibIdx r
  simp [mkRaw, h, hv.2]

/-- `DIE::decode` on a non-zero known abbreviation code produces the raw DIE
`DIE::Raw::Raw` builds, with the cursor it leaves. -/
theorem decodeDIE_entry (u : UnitMeta) (find : Nat → Option Abbreviation)
    (data : List Nat) (O parent code : Nat) (r1 : DWARFReader) (ab : Abbreviation)
    (h : DWARFReader.getuleb128 { data := data, off := O } = (code, r1))
    (hc : code ≠ 0) (hab : find code = some ab) :
    decodeDIE u find data O parent =
      DecodeResult.entry (mkRaw u ab parent r1).1 (mkRaw u ab parent r1).2.off := by
  simp [decodeDIE, h, hc, hab]

/-- C5: decoding a DIE at offset `O` first reads the ULEB128 abbreviation
code at `O`; code 0 yields the end-of-siblings terminator carrying the
current reader offset (the value back-filled into the parent's
`nextSibling`); a non-zero known code yields a raw DIE whose attribute
values are decoded in abbreviation order, after which the reader cursor is
recorded as `firstChild` when the abbreviation declares children, else as
`nextSibling` with `firstChild = 0`. -/
theorem claim_C5 (u : UnitMeta) (find : Nat → Option Abbreviation)
    (data : List Nat) (O parent : Nat) :
    (∀ r1, DWARFReader.getuleb128 { data := data, off := O } = (0, r1) →
      decodeDIE u find data O parent = DecodeResult.terminator r1.off) ∧
    (∀ code r1 ab, DWARFReader.getuleb128 { data := data, off := O } = (code, r1) →
      code ≠ 0 → find code = some ab →
      (decodeDIE u find data O parent).rawOf.map Raw.values =
        some (decodeValues u ab.forms r1).1 ∧
      (decodeDIE u find data O parent).cursorOf = some (decodeValues u ab.forms r1).2.off ∧
      (ab.hasChildren = true →
        (decodeDIE u find data O parent).rawOf.map Raw.firstChild =
          some (decodeValues u ab.forms r1).2.off) ∧
      (ab.hasChildren = false →
        (decodeDIE u find data O parent).rawOf.map Raw.firstChild = some 0 ∧
        (decodeDIE u find data O parent).rawOf.map Raw.nextSibling =
          some (decodeValues u ab.forms r1).2.off)) := by
  constructor
  · intro r1 h
    simp [decodeDIE, h]
  · intro code r1 ab h hc hab
    rw [decodeDIE_entry u find data O parent code r1 ab h hc hab]
    refine ⟨?_, ?_, ?_, ?_⟩
    · simp [DecodeResult.rawOf, mkRaw_values]
    · simp [DecodeResult.cursorOf, mkRaw_reader]
    · intro hch
      simp [DecodeResult.rawOf, mkRaw_firstChild_true u ab parent r1 hch]
    · intro hch
      simp [DecodeResult.rawOf, (mkRaw_children_false u ab parent r1 hch).1,
        (mkRaw_children_false u ab parent r1 hch).2]

/-- C5 witness: the decode contract at concrete bytes — `[0]` decodes to the
terminator back-filling offset 1; `[5, 7]` decodes (abbreviation 5: one
`DW_FORM_data1` attribute, no children) to a raw DIE with values `[7]`,
`firstChild = 0` and `nextSibling = 2` (the cursor after the attributes). -/
theorem claim_C5_witness :
    decodeDIE exUnit exFind [0] 0 0 = DecodeResult.terminator 1 ∧
    (decodeDIE exUnit exFind [5, 7] 0 0).rawOf.map Raw.values = some [Value.scalar 7] ∧
    (decodeDIE exUnit exFind [5, 7] 0 0).rawOf.map Raw.firstChild = some 0 ∧
    (decodeDIE exUnit exFind [5, 7] 0 0).rawOf.map Raw.nextSibling = some 2 := by
  have h5 := (claim_C5 exUnit exFind [5, 7] 0 0).2 5 { data := [5, 7], off := 1 }
    exAbbrevData1 (by decide) (by decide) (by decide)
  refine ⟨?_, ?_, ?_, ?_⟩
  · exact (claim_C5 exUnit exFind [0] 0 0).1 { data := [0], off := 1 } (by decide)
  · exact h5.1.trans (by decide)
  · exact (h5.2.2.2 (by decide)).1
  · exact (h5.2.2.2 (by decide)).2.trans (by decide)

/-- C7 counterexample: DIE 0 lacks `DW_AT_name`; its `DW_AT_abstract_origin`
target (DIE 1) also lacks it, while its `DW_AT_specification` target (DIE 2)
carries `DW_AT_name` = 42.  Under the claim the lookup, retried "and then on
the DIE referenced by DW_AT_specification", would find `(2, 42)`; the code
returns the result of the abstract-origin retry unconditionally once that
target resolves, so the lookup yields nothing. -/
theorem claim_C7_counterexample :
    attributeF 5 exWorldBoth 0 DW_AT_name false = none ∧
    lookupLocal exDieBoth DW_AT_specification = some 2 ∧
    attributeF 5 exWorldBoth 2 DW_AT_name false = some (2, 42) := by
  decide

/-- C7 (amended): `attribute(name, local)` first looks `name` up locally; if
absent and not local and `name` is none of `DW_AT_declaration`,
`DW_AT_abstract_origin`, `DW_AT_specification`, the lookup is retried on the
DIE referenced by `DW_AT_abstract_origin`; the `DW_AT_specification` target
is consulted only when no abstract-origin target resolves to a distinct DIE.
In particular, for a DIE lacking `name` whose abstract origin resolves,
`attribute(name)` equals `attribute(name)` on the abstract-origin target. -/
theorem claim_C7_amended (fuel : Nat) (w : List DieN) (id name : Nat) (d : DieN)
    (hd : w[id]? = some d) :
    (∀ v, lookupLocal d name = some v →
      attributeF (fuel + 1) w id name true = some (id, v) ∧
      attributeF (fuel + 1) w id name false = some (id, v)) ∧
    (∀ t, lookupLocal d name = none →
      name ≠ DW_AT_declaration → name ≠ DW_AT_abstract_origin → name ≠ DW_AT_specification →
      lookupLocal d DW_AT_abstract_origin = some t → (w[t]?).isSome = true → t ≠ id →
      attributeF (fuel + 1) w id name false = attributeF fuel w t name false) ∧
    (∀ t2, lookupLocal d name = none →
      name ≠ DW_AT_declaration → name ≠ DW_AT_abstract_origin → name ≠ DW_AT_specification →
      lookupLocal d DW_AT_abstract_origin = none →
      lookupLocal d DW_AT_specification = some t2 → (w[t2]?).isSome = true → t2 ≠ id →
      attributeF (fuel + 1) w id name false = attributeF fuel w t2 name false) := by
  refine ⟨?_, ?_, ?_⟩
  · intro v hv
    constructor <;> simp [attributeF, hd, hv]
  · intro t h1 h2 h3 h4 h5 h6 h7
    have h7b : (t != id) = true := by simp [bne_iff_ne, h7]
    simp [attributeF, hd, h1, h2, h3, h4, h5, h6, h7b]
  · intro t2 h1 h2 h3 h4 h5 h6 h7 h8
    have h8b : (t2 != id) = true := by simp [bne_iff_ne, h8]
    simp [attributeF, hd, h1, h2, h3, h4, h5, h6, h7, h8b]

/-- C7 witness: the amended lookup at concrete worlds — a local hit; the
abstract-origin indirection finding `DW_AT_name` = 99 on the target; and the
specification fallback (no abstract origin) finding `DW_AT_name` = 42. -/
theorem claim_C7_witness :
    attributeF 4 exWorldAO 1 DW_AT_name false = some (1, 99) ∧
    attributeF 4 exWorldAO 0 DW_AT_name false = some (1, 99) ∧
    attributeF 4 exWorldSpec 0 DW_AT_name false = some (2, 42) := by
  refine ⟨?_, ?_, ?_⟩
  · exact ((claim_C7_amended 3 exWorldAO 1 DW_AT_name { attrs := [(DW_AT_name, 99)] } rfl).1
      99 rfl).2
  · exact ((claim_C7_amended 3 exWorldAO 0 DW_AT_name exDieAO rfl).2.1 1 rfl
      (by decide) (by decide) (by decide) rfl (by decide) (by decide)).trans (by decide)
  · exact ((claim_C7_amended 3 exWorldSpec 0 DW_AT_name exDieSpec rfl).2.2 2 rfl
      (by decide) (by decide) (by decide) rfl rfl (by decide) (by decide)).trans (by decide)

/-- C8 counterexample: a childless DIE carrying `DW_AT_sibling` (form
`DW_FORM_ref4`, value 256, unit offset 0).  Its `nextSibling` is *not* taken
from the attribute: the constructor's no-children branch overwrites it with
the reader cursor after the attributes (5 ≠ 256). -/
theorem claim_C8_counterexample :
    (decodeDIE exUnit exFind [4, 0, 1, 0, 0] 0 0).rawOf.map Raw.nextSibling = some 5 ∧
    (decodeDIE exUnit exFind [4, 0, 1, 0, 0] 0 0).rawOf.map
      (fun rw => trunc ((rw.values.getD 0 (Value.scalar 0)).udataView + exUnit.offset)) =
      some 256 ∧
    (5 : Nat) ≠ 256 := by
  decide

/-- C8 (amended): for a DIE whose abbreviation declares children, a
`DW_AT_sibling` attribute determines `nextSibling` directly (its decoded
value plus the unit offset), and a known `nextSibling` is returned without
walking; without `DW_AT_sibling`, such a DIE is decoded with
`nextSibling = 0` and `firstChild` = the cursor after the attributes, and
the first request for its next sibling walks its children, returning (and in
C++ back-filling) the offset carried by the terminating null entry.
(Childless DIEs instead get `nextSibling` from the cursor at decode time —
see the counterexample.) -/
theorem claim_C8_amended :
    (∀ (u : UnitMeta) (ab : Abbreviation) (parent : Nat) (r : DWARFReader) (j : Nat),
      ab.hasChildren = true → ab.nextSibIdx = some j → j < ab.forms.length →
      (mkRaw u ab parent r).1.nextSibling =
        trunc (((decodeValues u ab.forms r).1.getD j (Value.scalar 0)).udataView + u.offset)) ∧
    (∀ (fuel : Nat) (c : DecodeCtx) (raw : Raw),
      raw.nextSibling ≠ 0 → nextSiblingOffset fuel c raw = some raw.nextSibling) ∧
    (∀ (u : UnitMeta) (ab : Abbreviation) (parent : Nat) (r : DWARFReader),
      ab.hasChildren = true → ab.nextSibIdx = none →
      (mkRaw u ab parent r).1.nextSibling = 0 ∧
      (mkRaw u ab parent r).1.firstChild = (decodeValues u ab.forms r).2.off) ∧
    (∀ (fuel : Nat) (c : DecodeCtx) (raw : Raw),
      raw.nextSibling = 0 → nextSiblingOffset fuel c raw = walkSibs fuel c raw.firstChild) ∧
    (∀ (fuel : Nat) (c : DecodeCtx) (raw : Raw) (n : Nat),
      raw.nextSibling = 0 → decodeAt c raw.firstChild = DecodeResult.terminator n →
      nextSiblingOffset (fuel + 1) c raw = some n) := by
  refine ⟨?_, ?_, ?_, ?_, ?_⟩
  · intro u ab parent r j hch hidx hlt
    have h := mkRawGo_ns_at u ab.forms 0 j r (Nat.zero_le j) (by simpa using hlt)
    simp only [mkRaw, hch, hidx]
    simpa using h
  · intro fuel c raw h
    simp [nextSiblingOffset, h]
  · intro u ab parent r hch hidx
    have hv := mkRawGo_values_reader u ab.forms 0 ab.nextSibIdx r
    constructor
    · simp only [mkRaw, hch, hidx]
      simp [mkRawGo_ns_none u ab.forms 0 r]
    · exact mkRaw_firstChild_true u ab parent r hch
  · intro fuel c raw h
    simp [nextSiblingOffset, h]
  · intro fuel c raw n h hterm
    simp [nextSiblingOffset, h, walkSibs, hterm]

/-- C8 witness: the amended statement at concrete bytes.  A DIE with
children and `DW_AT_sibling` = 9 gets `nextSibling = 9` and the sibling
request returns it directly; a parent without `DW_AT_sibling` decodes with
`nextSibling = 0`, and the sibling request walks: with one child
(`[1, 2, 0]`) the walk returns the post-terminator offset 3, with no
children (`[1, 0]`) it returns 2. -/
theorem claim_C8_witness :
    (mkRaw exUnit exAbbrevSib 0 { data := [3, 9, 0, 0, 0], off := 1 }).1.nextSibling = 9 ∧
    nextSiblingOffset 5 exCtxNoChild
      { type := exAbbrevSib, values := [Value.scalar 9], parent := 0, firstChild := 5,
        nextSibling := 9 } = some 9 ∧
    (mkRaw exUnit exAbbrevParent 0 { data := [1, 2, 0], off := 1 }).1.nextSibling = 0 ∧
    nextSiblingOffset 5 exCtxOneChild
      { type := exAbbrevParent, values := [], parent := 0, firstChild := 1,
        nextSibling := 0 } = walkSibs 5 exCtxOneChild 1 ∧
    nextSiblingOffset 5 exCtxNoChild
      { type := exAbbrevParent, values := [], parent := 0, firstChild := 1,
        nextSibling := 0 } = some 2 := by
  refine ⟨?_, ?_, ?_, ?_, ?_⟩
  · exact (claim_C8_amended.1 exUnit exAbbrevSib 0 { data := [3, 9, 0, 0, 0], off := 1 } 0
      rfl rfl (by decide)).trans (by decide)
  · exact (claim_C8_amended.2.1 5 exCtxNoChild _ (by decide))
  · exact (claim_C8_amended.2.2.1 exUnit exAbbrevParent 0 { data := [1, 2, 0], off := 1 }
      rfl rfl).1
  · exact claim_C8_amended.2.2.2.1 5 exCtxOneChild _ rfl
  · exact claim_C8_amended.2.2.2.2 4 exCtxNoChild _ 2 rfl (by decide)

end Dwarf
